import Mathlib

/-!
Verification of the mcp-ms-files repository: a facade over the Microsoft
Graph drive API with a path resolver, file operations (list, upload,
download), a tool front-end with zod schemas, and an HTTP + SSE front-end.

Strings from the JavaScript source are modelled as `List Char` (named
`Str`), so that the splitting, prefix and scanning operations of the code
can be reasoned about by structural induction.
-/

set_option autoImplicit false

deriving instance DecidableEq for Except

/-- JavaScript strings are modelled as lists of characters. -/
abbrev Str := List Char

/-- Bytes of a binary buffer. -/
abbrev Bytes := List Nat

/-- The ASCII apostrophe, written via its code so it can appear inside
constructed message strings. -/
def quoteC : Char := Char.ofNat 39

/-- Model of JavaScript `String.prototype.split(sep)` for a one-character
separator: `"a,b".split(",") = ["a","b"]`, `"".split(",") = [""]`.
The recursive call never returns `[]`, so prepending `c` to its head is
exactly "extend the first group". -/
def splitChar (sep : Char) : Str → List Str
  | [] => [[]]
  | c :: cs =>
    if c = sep then [] :: splitChar sep cs
    else (c :: (splitChar sep cs).headD []) :: (splitChar sep cs).tail

/-- Model of JavaScript `String.prototype.toLowerCase` (ASCII range, which
is all the code compares). -/
def toLowerStr (s : Str) : Str := s.map Char.toLower

theorem splitChar_ne_nil (sep : Char) (s : Str) : splitChar sep s ≠ [] := by
  induction s with
  | nil => simp [splitChar]
  | cons c cs ih =>
    simp only [splitChar]
    split <;> simp

example : splitChar '/' ("a//b".toList) = ["a".toList, [], "b".toList] := by decide

example : toLowerStr ("BeAr".toList) = "bear".toList := by decide

/-! ## Basic lemmas about `splitChar` -/

theorem splitChar_sep_free (sep : Char) (s : Str) :
    ∀ g ∈ splitChar sep s, ∀ c ∈ g, c ≠ sep := by
  induction s with
  | nil =>
    intro g hg
    simp only [splitChar, List.mem_singleton] at hg
    subst hg
    intro c hc
    exact absurd hc (List.not_mem_nil c)
  | cons c cs ih =>
    intro g hg
    simp only [splitChar] at hg
    by_cases h : c = sep
    · rw [if_pos h] at hg
      rcases List.mem_cons.mp hg with hg | hg
      · subst hg
        intro d hd
        exact absurd hd (List.not_mem_nil d)
      · exact ih g hg
    · rw [if_neg h] at hg
      rcases hsp : splitChar sep cs with _ | ⟨g0, gs⟩
      · exact absurd hsp (splitChar_ne_nil sep cs)
      · rw [hsp] at hg
        rcases List.mem_cons.mp hg with hg1 | hg1
        · subst hg1
          intro d hd
          rcases List.mem_cons.mp hd with hd1 | hd1
          · subst hd1; exact h
          · exact ih g0 (by rw [hsp]; exact List.mem_cons_self g0 gs) d
              (by simpa using hd1)
        · exact ih g (by rw [hsp]; exact List.mem_cons_of_mem g0 (by simpa using hg1))

theorem splitChar_of_sep_free (sep : Char) (s : Str)
    (h : ∀ c ∈ s, c ≠ sep) : splitChar sep s = [s] := by
  induction s with
  | nil => rfl
  | cons c cs ih =>
    have hc : c ≠ sep := h c (List.mem_cons_self c cs)
    have hcs : ∀ d ∈ cs, d ≠ sep := fun d hd => h d (List.mem_cons_of_mem c hd)
    simp only [splitChar, if_neg hc, ih hcs, List.headD, List.tail]

theorem splitChar_append_sep (sep : Char) (xs ys : Str)
    (h : ∀ c ∈ xs, c ≠ sep) :
    splitChar sep (xs ++ sep :: ys) = xs :: splitChar sep ys := by
  induction xs with
  | nil => simp [splitChar]
  | cons c cs ih =>
    have hc : c ≠ sep := h c (List.mem_cons_self c cs)
    have hcs : ∀ d ∈ cs, d ≠ sep := fun d hd => h d (List.mem_cons_of_mem c hd)
    rw [List.cons_append]
    simp only [splitChar, if_neg hc, ih hcs, List.headD, List.tail]

theorem splitChar_head (sep : Char) (s : Str) :
    (splitChar sep s).head? = some (s.takeWhile (fun c => c != sep)) := by
  induction s with
  | nil => rfl
  | cons c cs ih =>
    by_cases h : c = sep
    · simp [splitChar, if_pos h, List.takeWhile_cons, h]
    · have hb : (c != sep) = true := by simpa using h
      rcases hsp : splitChar sep cs with _ | ⟨g0, gs⟩
      · exact absurd hsp (splitChar_ne_nil sep cs)
      · rw [hsp] at ih
        have hg0 : g0 = cs.takeWhile (fun c => c != sep) := by simpa using ih
        simp [splitChar, if_neg h, hsp, List.takeWhile_cons, hb, hg0]

theorem splitChar_intercalate (sep : Char) (g : Str) (gs : List Str)
    (h : ∀ x ∈ g :: gs, ∀ c ∈ x, c ≠ sep) :
    splitChar sep (List.intercalate [sep] (g :: gs)) = g :: gs := by
  induction gs generalizing g with
  | nil =>
    have hsingle : List.intercalate [sep] [g] = g := by
      simp [List.intercalate, List.intersperse]
    rw [hsingle]
    exact splitChar_of_sep_free sep g (h g (List.mem_cons_self g []))
  | cons g1 gs1 ih =>
    have hg : ∀ c ∈ g, c ≠ sep := h g (List.mem_cons_self g (g1 :: gs1))
    have htail : ∀ x ∈ g1 :: gs1, ∀ c ∈ x, c ≠ sep :=
      fun x hx => h x (List.mem_cons_of_mem g hx)
    have hstep : List.intercalate [sep] (g :: g1 :: gs1) =
        g ++ sep :: List.intercalate [sep] (g1 :: gs1) := by
      simp [List.intercalate, List.intersperse]
    rw [hstep, splitChar_append_sep sep g _ hg, ih g1 htail]

theorem takeWhile_append_of_all {p : Char → Bool} (t r : Str)
    (h : ∀ c ∈ t, p c = true) :
    (t ++ r).takeWhile p = t ++ r.takeWhile p := by
  induction t with
  | nil => simp
  | cons c cs ih =>
    have hc : p c = true := h c (List.mem_cons_self c cs)
    have hcs : ∀ d ∈ cs, p d = true := fun d hd => h d (List.mem_cons_of_mem c hd)
    simp [List.takeWhile_cons, hc, ih hcs]

/-! ## Path Resolver (`FileService.resolveFolderId`)

The remote drive is modelled as a function from a folder identifier to the
list of its children as returned by the Graph `/children` endpoint.  The
`$filter=name eq '<seg>' and folder ne null` / `$select=id` query is
modelled by filtering that list. -/

/-- A child item as the resolver's filtered query sees it. -/
structure ChildItem where
  id : Str
  name : Str
  isFolder : Bool
  deriving DecidableEq

/-- The remote store: children of each folder identifier. -/
def Drive := Str → List ChildItem

/-- The identifier string with which the walk starts. -/
def rootId : Str := "root".toList

/-- One remote children query, filtered by exact name match and
"is a folder", projected to identifiers (mirrors
`.filter("name eq '<seg>' and folder ne null").select('id')`). -/
def folderQuery (drive : Drive) (cid seg : Str) : List Str :=
  ((drive cid).filter (fun it => it.name == seg && it.isFolder)).map (fun it => it.id)

/-- The message of the error thrown when a segment has no match:
`Folder '<seg>' not found in path '<fullPath>'`. -/
def notFoundMsg (fullPath seg : Str) : Str :=
  "Folder ".toList ++ [quoteC] ++ seg ++ [quoteC] ++
    " not found in path ".toList ++ [quoteC] ++ fullPath ++ [quoteC]

/-- The wrapper added by the `catch` block of `resolveFolderId`:
`Failed to resolve folder path '<fullPath>': <inner>`. -/
def wrapMsg (fullPath inner : Str) : Str :=
  "Failed to resolve folder path ".toList ++ [quoteC] ++ fullPath ++ [quoteC] ++
    ": ".toList ++ inner

/-- The segment walk of `resolveFolderId`: one remote query per segment,
taking the first match (`response.value[0].id`).  Returns the outcome and
the trace of remote queries (current folder id, segment name). -/
def resolveSegsT (drive : Drive) (fullPath : Str) :
    List Str → Str → Except Str Str × List (Str × Str)
  | [], cid => (Except.ok cid, [])
  | seg :: rest, cid =>
    match folderQuery drive cid seg with
    | [] => (Except.error (notFoundMsg fullPath seg), [(cid, seg)])
    | nextId :: _ =>
      let r := resolveSegsT drive fullPath rest nextId
      (r.fst, (cid, seg) :: r.snd)

/-- `folderPath.split('/').filter(Boolean)`: split on `/` and discard
empty segments. -/
def splitPath (p : Str) : List Str :=
  (splitChar '/' p).filter (fun g => !g.isEmpty)

/-- `FileService.resolveFolderId`.  The `Option Str` argument mirrors the
optional `folderPath?: string` parameter; `none` and the empty string are
both falsy in `if (!folderPath) return undefined`.  The second component
is the trace of remote children queries issued. -/
def resolveFolderId (drive : Drive) (folderPath : Option Str) :
    Except Str (Option Str) × List (Str × Str) :=
  match folderPath with
  | none => (Except.ok none, [])
  | some p =>
    if p = [] then (Except.ok none, [])
    else
      let r := resolveSegsT drive p (splitPath p) rootId
      (match r.fst with
       | Except.ok cid => Except.ok (if cid = rootId then none else some cid)
       | Except.error e => Except.error (wrapMsg p e), r.snd)

example :
    resolveFolderId (fun _ => []) (some ("a/b".toList)) =
      (Except.error (wrapMsg ("a/b".toList) (notFoundMsg ("a/b".toList) ("a".toList))),
        [(rootId, "a".toList)]) := by decide

/-! ### Analysis of the resolver

`resolveCore` is the message-free skeleton of the segment walk (the error
carries only the failing segment); `finishResolve` rebuilds the exact
outcome of `resolveFolderId` from it.  This factorisation shows that the
full input path enters the computation only through the error message. -/

/-- The segment walk with the failing segment as the error payload. -/
def resolveCore (drive : Drive) : List Str → Str → Except Str Str × List (Str × Str)
  | [], cid => (Except.ok cid, [])
  | seg :: rest, cid =>
    match folderQuery drive cid seg with
    | [] => (Except.error seg, [(cid, seg)])
    | nextId :: _ =>
      let r := resolveCore drive rest nextId
      (r.fst, (cid, seg) :: r.snd)

/-- Rebuild the `resolveFolderId` outcome from the core walk: map the
final identifier through the `root ↦ undefined` step and wrap a failing
segment into the exact error message. -/
def finishResolve (p : Str) (core : Except Str Str × List (Str × Str)) :
    Except Str (Option Str) × List (Str × Str) :=
  (match core.fst with
   | Except.ok cid => Except.ok (if cid = rootId then none else some cid)
   | Except.error seg => Except.error (wrapMsg p (notFoundMsg p seg)), core.snd)

/-- The path obtained from `p` by removing all empty segments (the
transformation named by the specification's equivalence property). -/
def removeEmptySegs (p : Str) : Str :=
  List.intercalate ['/'] (splitPath p)

theorem resolveSegsT_eq_core (drive : Drive) (fp : Str) (segs : List Str) (cid : Str) :
    resolveSegsT drive fp segs cid =
      ((resolveCore drive segs cid).fst.mapError (fun seg => notFoundMsg fp seg),
        (resolveCore drive segs cid).snd) := by
  induction segs generalizing cid with
  | nil => rfl
  | cons seg rest ih =>
    simp only [resolveSegsT, resolveCore]
    rcases hq : folderQuery drive cid seg with _ | ⟨nextId, _⟩
    · rfl
    · simp [ih nextId, Except.mapError]

theorem resolveFolderId_eq_finish (drive : Drive) (p : Str) :
    resolveFolderId drive (some p) =
      finishResolve p (resolveCore drive (splitPath p) rootId) := by
  by_cases hp : p = []
  · subst hp
    rfl
  · simp only [resolveFolderId, if_neg hp, resolveSegsT_eq_core, finishResolve]
    rcases (resolveCore drive (splitPath p) rootId).fst with e | v <;> simp [Except.mapError]

theorem splitPath_removeEmptySegs (p : Str) :
    splitPath (removeEmptySegs p) = splitPath p := by
  rcases hsp : splitPath p with _ | ⟨g, gs⟩
  · have : removeEmptySegs p = [] := by
      simp [removeEmptySegs, hsp, List.intercalate]
    simp [this, splitPath, splitChar, hsp]
  · have hmem : ∀ x ∈ g :: gs, ∀ c ∈ x, c ≠ '/' := by
      intro x hx c hc
      have hx2 : x ∈ splitPath p := by rw [hsp]; exact hx
      have hx3 : x ∈ splitChar '/' p := List.mem_of_mem_filter hx2
      exact splitChar_sep_free '/' p x hx3 c hc
    have hne : ∀ x ∈ g :: gs, x ≠ [] := by
      intro x hx
      have hx2 : x ∈ splitPath p := by rw [hsp]; exact hx
      have := List.of_mem_filter hx2
      simpa using this
    unfold removeEmptySegs
    rw [hsp]
    unfold splitPath
    rw [splitChar_intercalate '/' g gs hmem]
    rw [List.filter_eq_self.mpr]
    intro x hx
    simpa using hne x hx

/-- Claim C2: resolving an empty or absent folder path short-circuits to
"use root" (no folder identifier) and issues no remote call. -/
theorem c2_empty_path_short_circuits (drive : Drive) :
    resolveFolderId drive none = (Except.ok none, []) ∧
    resolveFolderId drive (some []) = (Except.ok none, []) :=
  ⟨rfl, rfl⟩

/-- Claim C1, counterexample: with an empty drive, the paths "a/" and "a"
(the latter being "a/" with empty segments removed) do NOT fail in the same
way — both fail, but the error messages quote the original path text, so
the two resolutions are not equal. -/
theorem c1_counterexample :
    (resolveFolderId (fun _ => []) (some ("a/".toList))).fst =
      Except.error (wrapMsg ("a/".toList) (notFoundMsg ("a/".toList) ("a".toList))) ∧
    (resolveFolderId (fun _ => []) (some (removeEmptySegs ("a/".toList)))).fst =
      Except.error (wrapMsg ("a".toList) (notFoundMsg ("a".toList) ("a".toList))) ∧
    wrapMsg ("a/".toList) (notFoundMsg ("a/".toList) ("a".toList)) ≠
      wrapMsg ("a".toList) (notFoundMsg ("a".toList) ("a".toList)) ∧
    removeEmptySegs ("a/".toList) = "a".toList := by
  refine ⟨by decide, by decide, by decide, by decide⟩

/-- Claim C1 (amended): resolution of `p` and of `p` with empty segments
removed are driven by one and the same core walk — they issue the same
remote queries, succeed with the same folder identifier, and fail at the
same segment; only the path text quoted inside a failure message differs. -/
theorem c1_amended_resolution_equiv (drive : Drive) (p : Str) :
    ∃ core : Except Str Str × List (Str × Str),
      resolveFolderId drive (some p) = finishResolve p core ∧
      resolveFolderId drive (some (removeEmptySegs p)) =
        finishResolve (removeEmptySegs p) core := by
  refine ⟨resolveCore drive (splitPath p) rootId, resolveFolderId_eq_finish drive p, ?_⟩
  rw [resolveFolderId_eq_finish drive (removeEmptySegs p), splitPath_removeEmptySegs p]

theorem resolveSegsT_append (drive : Drive) (fp : Str) (xs ys : List Str) (cid : Str) :
    resolveSegsT drive fp (xs ++ ys) cid =
      (match resolveSegsT drive fp xs cid with
       | (Except.ok c, t) =>
           ((resolveSegsT drive fp ys c).fst, t ++ (resolveSegsT drive fp ys c).snd)
       | (Except.error e, t) => (Except.error e, t)) := by
  induction xs generalizing cid with
  | nil => simp [resolveSegsT]
  | cons seg rest ih =>
    rw [List.cons_append]
    rcases hq : folderQuery drive cid seg with _ | ⟨nextId, tl⟩
    · simp [resolveSegsT, hq]
    · simp only [resolveSegsT, hq]
      rw [ih nextId]
      rcases hr : resolveSegsT drive fp rest nextId with ⟨r, t⟩
      rcases r with e | c <;> simp [hr]

/-- Claim C6: if the walk reaches a folder `cid` having consumed the
segments `pre` of the path, and the next segment has zero matching child
folders, then `resolveFolderId` fails with the error message naming that
missing segment and the full input path. -/
theorem c6_notfound_names_segment_and_path (drive : Drive) (p : Str)
    (pre rest : List Str) (seg : Str) (cid : Str) (tr : List (Str × Str))
    (hp : p ≠ [])
    (hsegs : splitPath p = pre ++ seg :: rest)
    (hwalk : resolveSegsT drive p pre rootId = (Except.ok cid, tr))
    (hmiss : folderQuery drive cid seg = []) :
    (resolveFolderId drive (some p)).fst =
      Except.error (wrapMsg p (notFoundMsg p seg)) := by
  have hfail : (resolveSegsT drive p (splitPath p) rootId).fst =
      Except.error (notFoundMsg p seg) := by
    rw [hsegs, resolveSegsT_append, hwalk]
    simp [resolveSegsT, hmiss]
  simp only [resolveFolderId, if_neg hp]
  rw [hfail]

/-- A small concrete drive: the root has one child folder "a" with
identifier "idA"; "idA" has no children. -/
def demoDrive : Drive := fun cid =>
  if cid = rootId then [{ id := "idA".toList, name := "a".toList, isFolder := true }]
  else []

/-- Witness for claim C6: resolving "a/x" on `demoDrive` walks into "idA"
and then fails on segment "x" with the message naming "x" and "a/x". -/
theorem c6_witness :
    (resolveFolderId demoDrive (some ("a/x".toList))).fst =
      Except.error (wrapMsg ("a/x".toList) (notFoundMsg ("a/x".toList) ("x".toList))) :=
  c6_notfound_names_segment_and_path demoDrive ("a/x".toList)
    ["a".toList] [] ("x".toList) ("idA".toList) [(rootId, "a".toList)]
    (by decide) (by decide) (by decide) (by decide)

/-! ## Node `path` (posix) models

Only the functions the service uses: `extname`, `join`, `dirname`,
`resolve` (with the process working directory as an explicit argument),
and `basename` via the same machinery. -/

/-- Whether a character is the posix path separator. -/
def isSep (c : Char) : Bool := c = '/'

/-- `path.extname`: the portion of the basename from its last dot, or the
empty string when the basename has no dot, starts with its only dot, or is
exactly `..`.  Trailing slashes are ignored, as in Node. -/
def extnameStr (p : Str) : Str :=
  let r := p.reverse.dropWhile isSep
  let b := r.takeWhile (fun c => !(isSep c))
  if b.reverse = ['.', '.'] then []
  else if b.contains '.' then
    let afterRev := b.takeWhile (fun c => c != '.')
    if afterRev.length + 1 = b.length then []
    else '.' :: afterRev.reverse
  else []

/-- One step of Node's `normalizeString`: skip empty and `.` segments,
let `..` pop the last kept segment (or survive at the front of a relative
path).  The accumulator is kept reversed. -/
def normStep (aboveRoot : Bool) (acc : List Str) (seg : Str) : List Str :=
  if seg = [] ∨ seg = ['.'] then acc
  else if seg = ['.', '.'] then
    match acc with
    | [] => if aboveRoot then [seg] else []
    | top :: tl => if top = ['.', '.'] then seg :: acc else tl
  else seg :: acc

/-- Node's `normalizeString` over the split segments. -/
def normalizeSegs (aboveRoot : Bool) (segs : List Str) : List Str :=
  (segs.foldl (normStep aboveRoot) []).reverse

/-- `path.normalize` (posix). -/
def normalizeStr (p : Str) : Str :=
  if p = [] then ['.']
  else
    let abs := p.head? = some '/'
    let trail := p.getLast? = some '/'
    let body := List.intercalate ['/'] (normalizeSegs (!(p.head? = some '/' : Bool) = true) (splitChar '/' p))
    if body = [] then
      if abs then ['/'] else if trail then ['.', '/'] else ['.']
    else
      let withTrail := if trail then body ++ ['/'] else body
      if abs then '/' :: withTrail else withTrail

/-- `path.join(a, b)` (posix): drop empty parts, join with `/`,
normalize; all-empty input gives `"."`. -/
def joinStr (a b : Str) : Str :=
  let parts := [a, b].filter (fun s => !s.isEmpty)
  let joined := List.intercalate ['/'] parts
  if joined = [] then ['.'] else normalizeStr joined

/-- `path.dirname` (posix): everything before the separator preceding the
basename; `.` when there is none, `/` for root-only paths. -/
def dirnameStr (p : Str) : Str :=
  if p = [] then ['.']
  else
    let hasRoot := p.head? = some '/'
    let r2 := (p.reverse.dropWhile isSep).dropWhile (fun c => !(isSep c))
    let res := (r2.drop 1).reverse
    if res = [] then (if hasRoot then ['/'] else ['.'])
    else if res = ['/'] then ['/', '/']
    else res

/-- `path.resolve(p)` (posix) with the working directory `cwd` made
explicit: prepend `cwd` unless `p` is already absolute, then normalize;
no trailing separator is kept. -/
def resolveStr (cwd p : Str) : Str :=
  let full := if p = [] then cwd else if p.head? = some '/' then p else cwd ++ '/' :: p
  let abs := full.head? = some '/'
  let body := List.intercalate ['/'] (normalizeSegs (!(full.head? = some '/' : Bool) = true) (splitChar '/' full))
  if abs then '/' :: body
  else if body = [] then ['.'] else body

example : extnameStr ("/tmp/out".toList) = [] := by decide
example : extnameStr ("/tmp/out.pdf".toList) = ".pdf".toList := by decide
example : extnameStr ("/tmp/.hidden".toList) = [] := by decide
example : extnameStr ("a..".toList) = ".".toList := by decide
example : joinStr ("/tmp/out".toList) ("report.pdf".toList) = "/tmp/out/report.pdf".toList := by decide
example : dirnameStr ("/tmp/out/report.pdf".toList) = "/tmp/out".toList := by decide
example : dirnameStr ("/a".toList) = "/".toList := by decide
example : resolveStr ("/home/user".toList) ("out.pdf".toList) = "/home/user/out.pdf".toList := by decide
example : resolveStr ("/home".toList) ("/tmp/out/report.pdf".toList) = "/tmp/out/report.pdf".toList := by decide

/-! ## Local filesystem model

Only what `downloadFile` touches: `fs.mkdir(dir, { recursive: true })`
and `fs.writeFile(path, buffer)`.  With `recursive: true` Node's `mkdir`
never fails on a pre-existing directory; without it, it raises `EEXIST`.
(Other failure modes of the real filesystem are out of scope.) -/

structure FS where
  dirs : List Str
  files : List (Str × Bytes)
  deriving DecidableEq

def eexistMsg : Str := "EEXIST: file already exists".toList

/-- `fs.mkdir(p, { recursive })`. -/
def mkdirFS (fs : FS) (p : Str) (recursive : Bool) : Except Str FS :=
  if recursive then Except.ok { fs with dirs := p :: fs.dirs }
  else if fs.dirs.contains p then Except.error eexistMsg
  else Except.ok { fs with dirs := p :: fs.dirs }

/-- `fs.writeFile(p, buf)`. -/
def writeFS (fs : FS) (p : Str) (b : Bytes) : FS :=
  { fs with files := (p, b) :: fs.files }

/-! ## `FileService.downloadFile` (the later revision, which is the one
that takes effect: in a JavaScript class body the second definition of a
method overwrites the first) -/

def octetStream : Str := "application/octet-stream".toList

/-- `x || 'application/octet-stream'` on a mime type string. -/
def mimeOrDefault (m : Str) : Str := if m = [] then octetStream else m

/-- Metadata returned by the Graph lookup
(`$select=id,name,size,file`); `file = some mimeType` iff the item has a
file facet. -/
structure DlMeta where
  id : Str
  name : Str
  size : Nat
  file : Option Str
  deriving DecidableEq

/-- The remote side of a download: the metadata lookup keyed by the
address components (parent folder identifier and file name — the service
builds `/me/drive/items/{pid}:/{name}` or `/me/drive/root:/{name}` from
exactly these), and the content fetch keyed by item identifier.  A lookup
error models the Graph client throwing (e.g. 404). -/
structure DlRemote where
  lookupItem : Option Str → Str → Except Str DlMeta
  fetchContent : Str → Bytes

/-- The catch wrapper of `downloadFile`:
`Failed to download file '<fileName>': <inner>`. -/
def dlWrap (fileName inner : Str) : Str :=
  "Failed to download file ".toList ++ [quoteC] ++ fileName ++ [quoteC] ++
    ": ".toList ++ inner

/-- `File '<fileName>' not found`, thrown when the item has no file facet. -/
def dlNotFoundMsg (fileName : Str) : Str :=
  "File ".toList ++ [quoteC] ++ fileName ++ [quoteC] ++ " not found".toList

/-- The download response.  In the source the saved-to-disk branch returns
`{fileName, mimeType, filePath}` and the inline branch returns
`{fileName, mimeType, content}` (base64 of the buffer; we keep the raw
bytes, base64 being a fixed bijective wire encoding). -/
structure DlResp where
  fileName : Str
  mimeType : Str
  filePath : Option Str
  content : Option Bytes
  deriving DecidableEq

/-- Result of a download together with the filesystem effects performed. -/
structure DlOutcome where
  resp : DlResp
  fs : FS
  mkdirCalls : List Str
  writeCalls : List (Str × Bytes)
  deriving DecidableEq

/-- `parentFolderName ? await this.resolveFolderId(...) : undefined`
(shared by `uploadFile` and `downloadFile`); the empty string is falsy. -/
def resolveParentT (drive : Drive) (pf : Option Str) :
    Except Str (Option Str) × List (Str × Str) :=
  match pf with
  | none => (Except.ok none, [])
  | some p => if p = [] then (Except.ok none, []) else resolveFolderId drive (some p)

/-- `FileService.downloadFile` (effective revision): resolve the parent
folder, look the file up by name, check the file facet, fetch the bytes,
then either save to disk (directory-or-exact-path decision by
`path.extname`, `mkdir -p` on the dirname, absolute path reported, no
content field) or return the content inline. -/
def downloadFileM (drive : Drive) (remote : DlRemote) (cwd : Str) (fs0 : FS)
    (fileName : Str) (parentFolderName : Option Str) (outputPath : Option Str) :
    Except Str DlOutcome :=
  match (resolveParentT drive parentFolderName).fst with
  | Except.error e => Except.error (dlWrap fileName e)
  | Except.ok pid =>
    match remote.lookupItem pid fileName with
    | Except.error e => Except.error (dlWrap fileName e)
    | Except.ok meta =>
      match meta.file with
      | none => Except.error (dlWrap fileName (dlNotFoundMsg fileName))
      | some mt =>
        let buf := remote.fetchContent meta.id
        match outputPath with
        | some op =>
          if op = [] then
            -- the empty string is falsy: `if (outputPath)` takes the inline branch
            Except.ok { resp := { fileName := meta.name, mimeType := mimeOrDefault mt,
                                  filePath := none, content := some buf },
                        fs := fs0, mkdirCalls := [], writeCalls := [] }
          else
            let isDir := extnameStr op = []
            let finalPath := if isDir then joinStr op meta.name else op
            match mkdirFS fs0 (dirnameStr finalPath) true with
            | Except.error e => Except.error (dlWrap fileName e)
            | Except.ok fs1 =>
              Except.ok { resp := { fileName := meta.name, mimeType := mimeOrDefault mt,
                                    filePath := some (resolveStr cwd finalPath),
                                    content := none },
                          fs := writeFS fs1 finalPath buf,
                          mkdirCalls := [dirnameStr finalPath],
                          writeCalls := [(finalPath, buf)] }
        | none =>
          Except.ok { resp := { fileName := meta.name, mimeType := mimeOrDefault mt,
                                filePath := none, content := some buf },
                      fs := fs0, mkdirCalls := [], writeCalls := [] }

theorem resolveStr_absolute (cwd p : Str) (h : cwd.head? = some '/') :
    (resolveStr cwd p).head? = some '/' := by
  rcases cwd with _ | ⟨c0, cs⟩
  · simp at h
  · have hc0 : c0 = '/' := by simpa using h
    subst hc0
    unfold resolveStr
    rcases p with _ | ⟨p0, ps⟩
    · simp
    · by_cases habs : p0 = '/'
      · simp [habs]
      · have : (('/' :: cs) ++ '/' :: p0 :: ps).head? = some '/' := by simp
        simp [habs, this]

/-- Claim C3: for a download with a non-empty `outputPath` (given a
resolvable parent, a successful lookup, and a file facet), the content is
written to `path.join(outputPath, <resolved name>)` when `outputPath` has
no extension and exactly to `outputPath` otherwise; the parent directory
is created with `recursive: true` (so pre-existing directories are never
an error — the call succeeds for every starting filesystem); and the
response carries the absolute saved path and no content field. -/
theorem c3_download_output_path (drive : Drive) (remote : DlRemote) (cwd : Str)
    (fs0 : FS) (fileName : Str) (pfn : Option Str) (op : Str)
    (pid : Option Str) (meta : DlMeta) (mt : Str)
    (hcwd : cwd.head? = some '/')
    (hpid : (resolveParentT drive pfn).fst = Except.ok pid)
    (hlook : remote.lookupItem pid fileName = Except.ok meta)
    (hfile : meta.file = some mt)
    (hop : op ≠ []) :
    ∃ out : DlOutcome,
      downloadFileM drive remote cwd fs0 fileName pfn (some op) = Except.ok out ∧
      out.resp.content = none ∧
      (∃ fp, out.resp.filePath = some fp ∧ fp.head? = some '/') ∧
      (let finalPath := if extnameStr op = [] then joinStr op meta.name else op
       out.writeCalls = [(finalPath, remote.fetchContent meta.id)] ∧
       out.resp.filePath = some (resolveStr cwd finalPath) ∧
       out.mkdirCalls = [dirnameStr finalPath] ∧
       out.fs = writeFS { fs0 with dirs := dirnameStr finalPath :: fs0.dirs }
                  finalPath (remote.fetchContent meta.id)) := by
  simp only [downloadFileM, hpid, hlook, hfile, if_neg hop]
  refine ⟨_, rfl, rfl, ⟨resolveStr cwd (if extnameStr op = [] then joinStr op meta.name else op), ?_, ?_⟩, ?_, ?_, ?_, ?_⟩
  · simp [mkdirFS]
  · exact resolveStr_absolute cwd _ hcwd
  · simp [mkdirFS]
  · simp [mkdirFS]
  · simp [mkdirFS]
  · simp [mkdirFS]

/-- The remote store used by the download witness: at the root there is a
single file "report.pdf". -/
def demoDlRemote : DlRemote :=
  { lookupItem := fun pid n =>
      if pid = none ∧ n = "report.pdf".toList then
        Except.ok { id := "f1".toList, name := "report.pdf".toList,
                    size := 3, file := some ("application/pdf".toList) }
      else Except.error ("itemNotFound".toList)
    fetchContent := fun _ => [37, 80, 68] }

/-- Witness for claim C3: downloading "report.pdf" with
`outputPath = "/tmp/out"` (no extension) saves to "/tmp/out/report.pdf",
creates "/tmp/out", and reports that absolute path with no content. -/
theorem c3_witness :
    ∃ out : DlOutcome,
      downloadFileM (fun _ => []) demoDlRemote ("/home".toList) ⟨[], []⟩
          ("report.pdf".toList) none (some ("/tmp/out".toList)) = Except.ok out ∧
      out.resp.content = none ∧
      (∃ fp, out.resp.filePath = some fp ∧ fp.head? = some '/') ∧
      (let finalPath := if extnameStr ("/tmp/out".toList) = []
                        then joinStr ("/tmp/out".toList) ("report.pdf".toList)
                        else "/tmp/out".toList
       out.writeCalls = [(finalPath, demoDlRemote.fetchContent ("f1".toList))] ∧
       out.resp.filePath = some (resolveStr ("/home".toList) finalPath) ∧
       out.mkdirCalls = [dirnameStr finalPath] ∧
       out.fs = writeFS { dirs := [dirnameStr finalPath], files := [] }
                  finalPath (demoDlRemote.fetchContent ("f1".toList))) :=
  c3_download_output_path (fun _ => []) demoDlRemote ("/home".toList) ⟨[], []⟩
    ("report.pdf".toList) none ("/tmp/out".toList) none
    { id := "f1".toList, name := "report.pdf".toList,
      size := 3, file := some ("application/pdf".toList) }
    ("application/pdf".toList)
    (by decide) (by decide) (by decide) (by decide) (by decide)

/-! ## `FileService.uploadFile` and the upload schema -/

/-- `a || b` for an optional string and a fallback (JavaScript truthiness:
`undefined` and `""` both fall through to `b`). -/
def orNonempty (a : Option Str) (b : Str) : Option Str :=
  match a with
  | some s => if s = [] then some b else some s
  | none => some b

/-- JavaScript truthiness of an optional string. -/
def jsTruthy : Option Str → Bool
  | none => false
  | some s => !s.isEmpty

/-- Remote calls issued by `uploadFile`: the resolver's children queries
and the content `PUT` (parent folder id, file name, conflict behavior,
base64 content as passed to `Buffer.from(..., 'base64')`). -/
inductive RemoteCall where
  | childQuery : Str → Str → RemoteCall
  | putContent : Option Str → Str → Str → Str → RemoteCall
  deriving DecidableEq

/-- The remote response to the upload `PUT`. -/
structure UpPutResult where
  id : Str
  webUrl : Str
  name : Str
  size : Nat
  fileMime : Option Str
  deriving DecidableEq

/-- The remote side of an upload. -/
structure UpRemote where
  put : Option Str → Str → Str → Str → Except Str UpPutResult

/-- The service's upload response shape. -/
structure UploadResp where
  id : Str
  webUrl : Str
  name : Str
  size : Nat
  mimeType : Str
  deriving DecidableEq

/-- `UploadFileInput` as destructured by the service (the access token
plays no role in the control flow modelled here). -/
structure UpInput where
  parentFolderName : Option Str
  filePath : Option Str
  fileName : Option Str
  fileContent : Option Str
  conflictBehavior : Option Str
  deriving DecidableEq

def upWrap (inner : Str) : Str := "Failed to upload file: ".toList ++ inner

def nameRequiredMsg : Str :=
  "File name is required when filePath is not provided".toList

def contentRequiredMsg : Str :=
  "File content is required when filePath is not provided".toList

def renameStr : Str := "rename".toList

/-- `FileService.uploadFile`.  `localRead` models `readFileAsBase64`
(returning base64 content and the basename, or its wrapped read error).
Returns the outcome and the list of remote calls issued. -/
def uploadFileM (drive : Drive) (localRead : Str → Except Str (Str × Str))
    (remote : UpRemote) (inp : UpInput) :
    Except Str UploadResp × List RemoteCall :=
  let cb := match inp.conflictBehavior with
            | none => renameStr
            | some c => c
  let prepared : Except Str (Option Str × Option Str) :=
    match inp.filePath with
    | none => Except.ok (inp.fileName, inp.fileContent)
    | some fp =>
      match localRead fp with
      | Except.error e => Except.error e
      | Except.ok (content, readName) =>
        Except.ok (orNonempty inp.fileName readName, some content)
  match prepared with
  | Except.error e => (Except.error (upWrap e), [])
  | Except.ok (fn?, fc?) =>
    match fn? with
    | none => (Except.error (upWrap nameRequiredMsg), [])
    | some fn =>
      if fn = [] then (Except.error (upWrap nameRequiredMsg), [])
      else
        match fc? with
        | none => (Except.error (upWrap contentRequiredMsg), [])
        | some fc =>
          if fc = [] then (Except.error (upWrap contentRequiredMsg), [])
          else
            let pres := resolveParentT drive inp.parentFolderName
            let queries := pres.snd.map (fun q => RemoteCall.childQuery q.fst q.snd)
            match pres.fst with
            | Except.error e => (Except.error (upWrap e), queries)
            | Except.ok pid =>
              match remote.put pid fn cb fc with
              | Except.error e =>
                  (Except.error (upWrap e), queries ++ [RemoteCall.putContent pid fn cb fc])
              | Except.ok r =>
                  (Except.ok { id := r.id, webUrl := r.webUrl, name := r.name,
                               size := r.size,
                               mimeType := match r.fileMime with
                                           | some m => mimeOrDefault m
                                           | none => octetStream },
                   queries ++ [RemoteCall.putContent pid fn cb fc])

/-- The fields of `uploadFileSchema` (part_004).  `none` models an absent
field. -/
structure UpSchemaInput where
  accessToken : Option Str
  parentFolderId : Option Str
  fileName : Option Str
  fileContent : Option Str
  filePath : Option Str
  conflictBehavior : Option Str
  deriving DecidableEq

/-- Membership in the `conflictBehavior` enum. -/
def validBehavior (c : Str) : Bool :=
  c == "fail".toList || c == "replace".toList || c == renameStr

/-- An optional `z.string().min(1)` field: absent is fine, present must be
non-empty. -/
def optNonempty : Option Str → Bool
  | none => true
  | some s => !s.isEmpty

/-- `uploadFileSchema.safeParse(...).success`: required non-empty access
token, optional non-empty strings, the behavior enum, and the refinement
`data.filePath || (data.fileName && data.fileContent)`. -/
def uploadSchemaAccepts (i : UpSchemaInput) : Bool :=
  (match i.accessToken with
   | none => false
   | some s => !s.isEmpty) &&
  optNonempty i.fileName &&
  optNonempty i.fileContent &&
  optNonempty i.filePath &&
  (match i.conflictBehavior with
   | none => true
   | some c => validBehavior c) &&
  (i.filePath.isSome || (i.fileName.isSome && i.fileContent.isSome))

/-- Claim C4: an upload with no `filePath` and without both a truthy
`fileName` and a truthy `fileContent` fails with the validation error
(wrapped "file name is required" / "file content is required" message,
the codebase's `ValidationError` case) before any remote call, and the
upload schema of the tool front-end rejects the same input. -/
theorem c4_upload_validation (drive : Drive)
    (localRead : Str → Except Str (Str × Str)) (remote : UpRemote)
    (pfn : Option Str) (fileName fileContent cb : Option Str) (tok : Option Str)
    (h : (jsTruthy fileName && jsTruthy fileContent) = false) :
    (uploadFileM drive localRead remote
        { parentFolderName := pfn, filePath := none, fileName := fileName,
          fileContent := fileContent, conflictBehavior := cb }).snd = [] ∧
    (∃ m, (uploadFileM drive localRead remote
        { parentFolderName := pfn, filePath := none, fileName := fileName,
          fileContent := fileContent, conflictBehavior := cb }).fst =
          Except.error (upWrap m) ∧ (m = nameRequiredMsg ∨ m = contentRequiredMsg)) ∧
    uploadSchemaAccepts
        { accessToken := tok, parentFolderId := none, fileName := fileName,
          fileContent := fileContent, filePath := none, conflictBehavior := cb } = false := by
  have hcases : jsTruthy fileName = false ∨ jsTruthy fileContent = false := by
    rcases Bool.and_eq_false_iff.mp h with h1 | h1
    · exact Or.inl h1
    · exact Or.inr h1
  refine ⟨?_, ?_, ?_⟩
  · rcases fileName with _ | fn
    · simp [uploadFileM]
    · by_cases hfn : fn = []
      · simp [uploadFileM, hfn]
      · rcases fileContent with _ | fc
        · simp [uploadFileM, hfn]
        · by_cases hfc : fc = []
          · simp [uploadFileM, hfn, hfc]
          · exfalso
            simp [jsTruthy, hfn, hfc, List.isEmpty_iff] at h
      
  · rcases fileName with _ | fn
    · exact ⟨nameRequiredMsg, by simp [uploadFileM], Or.inl rfl⟩
    · by_cases hfn : fn = []
      · exact ⟨nameRequiredMsg, by simp [uploadFileM, hfn], Or.inl rfl⟩
      · rcases fileContent with _ | fc
        · exact ⟨contentRequiredMsg, by simp [uploadFileM, hfn], Or.inr rfl⟩
        · by_cases hfc : fc = []
          · exact ⟨contentRequiredMsg, by simp [uploadFileM, hfn, hfc], Or.inr rfl⟩
          · exfalso
            simp [jsTruthy, hfn, hfc, List.isEmpty_iff] at h
  · rcases hcases with h1 | h1
    · rcases fileName with _ | fn
      · simp [uploadSchemaAccepts]
      · have : fn = [] := by simpa [jsTruthy, List.isEmpty_iff] using h1
        simp [uploadSchemaAccepts, optNonempty, this]
    · rcases fileContent with _ | fc
      · simp [uploadSchemaAccepts]
      · have : fc = [] := by simpa [jsTruthy, List.isEmpty_iff] using h1
        simp [uploadSchemaAccepts, optNonempty, this]

/-- Witness for claim C4: an upload with neither `filePath` nor
`fileName`/`fileContent` makes no remote call, fails with the wrapped
validation message, and is rejected by the upload schema. -/
theorem c4_witness :
    (uploadFileM (fun _ => []) (fun _ => Except.error []) ⟨fun _ _ _ _ => Except.error []⟩
        { parentFolderName := none, filePath := none, fileName := none,
          fileContent := none, conflictBehavior := none }).snd = [] ∧
    (∃ m, (uploadFileM (fun _ => []) (fun _ => Except.error []) ⟨fun _ _ _ _ => Except.error []⟩
        { parentFolderName := none, filePath := none, fileName := none,
          fileContent := none, conflictBehavior := none }).fst =
          Except.error (upWrap m) ∧ (m = nameRequiredMsg ∨ m = contentRequiredMsg)) ∧
    uploadSchemaAccepts
        { accessToken := some ("tok".toList), parentFolderId := none, fileName := none,
          fileContent := none, filePath := none, conflictBehavior := none } = false :=
  c4_upload_validation (fun _ => []) (fun _ => Except.error []) ⟨fun _ _ _ _ => Except.error []⟩
    none none none none (some ("tok".toList)) (by decide)

/-! ## `FileService.listFiles` and the continuation-token extraction -/

/-- A raw Graph drive item (the fields selected by the listing query). -/
structure RawItem where
  id : Str
  name : Str
  webUrl : Str
  size : Nat
  createdDateTime : Str
  lastModifiedDateTime : Str
  fileFacet : Option (Str × Option Str)
  folderFacet : Option Nat
  parentRef : Option (Str × Str × Str)
  deriving DecidableEq

/-- A Graph listing response: the `value` array and the optional
`@odata.nextLink`. -/
structure GraphPage where
  value : List RawItem
  nextLink : Option Str
  deriving DecidableEq

/-- The reshaped item built by the `response.value.map(...)` literal
(same fields; the `file`/`folder` facets are passed through). -/
structure ItemOut where
  id : Str
  name : Str
  webUrl : Str
  size : Nat
  createdDateTime : Str
  lastModifiedDateTime : Str
  file : Option (Str × Option Str)
  folder : Option Nat
  parentReference : Option (Str × Str × Str)
  deriving DecidableEq

def mapItem (it : RawItem) : ItemOut :=
  { id := it.id, name := it.name, webUrl := it.webUrl, size := it.size,
    createdDateTime := it.createdDateTime,
    lastModifiedDateTime := it.lastModifiedDateTime,
    file := it.fileFacet, folder := it.folderFacet,
    parentReference := it.parentRef }

/-- The query-string key of the skip token (`$skiptoken=`). -/
def skipTokenKey : Str := "$skiptoken=".toList

/-- The regex `/[&?]\$skiptoken=([^&]+)/` applied with JavaScript
`String.prototype.match`, taking capture group 1: scan left to right for
`&` or `?` followed by `$skiptoken=` and at least one non-`&` character;
the capture is the maximal run of non-`&` characters. -/
def scanSkipToken : Str → Option Str
  | [] => none
  | c :: rest =>
    let t0 := (rest.drop skipTokenKey.length).takeWhile (fun x => x != '&')
    if (c = '&' ∨ c = '?') ∧ skipTokenKey.isPrefixOf rest = true ∧ t0 ≠ [] then
      some t0
    else scanSkipToken rest

/-- The service's listing response. -/
structure ListResp where
  items : List ItemOut
  nextPageToken : Option Str
  deriving DecidableEq

/-- The response shaping of `FileService.listFiles`:
`response.value.map(...)` plus
`response['@odata.nextLink']?.match(/[&?]\$skiptoken=([^&]+)/)?.[1]`. -/
def listFilesM (page : GraphPage) : ListResp :=
  { items := page.value.map mapItem,
    nextPageToken := page.nextLink.bind scanSkipToken }

example :
    scanSkipToken ("https://g/me?$top=5&$skiptoken=ab12&x=1".toList) =
      some ("ab12".toList) := by decide

example : scanSkipToken ("https://g/me?$top=5".toList) = none := by decide

theorem isPrefixOf_append_self (xs ys : Str) : xs.isPrefixOf (xs ++ ys) = true := by
  induction xs with
  | nil => simp [List.isPrefixOf]
  | cons c cs ih => simp [List.isPrefixOf, ih]

/-- A continuation link with no skip-token parameter. -/
def noTokenLink : Str := "https://graph.example.com/next?$top=5".toList

/-- Claim C5, counterexample: a response whose continuation link is
present but contains no skip-token parameter yields an absent
`nextPageToken`, so "the token is absent exactly when the link is absent"
fails in the only-if direction. -/
theorem c5_counterexample :
    (listFilesM { value := [], nextLink := some noTokenLink }).nextPageToken = none ∧
    (({ value := [], nextLink := some noTokenLink } : GraphPage).nextLink).isSome = true := by
  refine ⟨by decide, by decide⟩

/-- Claim C5 (amended): the returned token is exactly the regex extraction
applied to the link when present (hence absent when the link is absent,
but also absent when a present link has no skip-token match); and on a
well-formed link — a prefix free of `&`/`?`, then `&` or `?`, then
`$skiptoken=`, then a non-empty `&`-free value, then either nothing or a
further `&`-started suffix — the extraction returns exactly that value. -/
theorem c5_amended_token_extraction (page : GraphPage) (a t r : Str) (sep : Char)
    (hsep : sep = '&' ∨ sep = '?')
    (ha : ∀ c ∈ a, c ≠ '&' ∧ c ≠ '?')
    (ht0 : t ≠ [])
    (ht : ∀ c ∈ t, c ≠ '&')
    (hr : r = [] ∨ ∃ r2, r = '&' :: r2) :
    (listFilesM page).nextPageToken = page.nextLink.bind scanSkipToken ∧
    (page.nextLink = none → (listFilesM page).nextPageToken = none) ∧
    scanSkipToken (a ++ sep :: (skipTokenKey ++ (t ++ r))) = some t := by
  refine ⟨rfl, ?_, ?_⟩
  · intro hnone
    simp [listFilesM, hnone]
  · have htake : (t ++ r).takeWhile (fun x => x != '&') = t := by
      have hall : ∀ c ∈ t, (fun x => x != '&') c = true := by
        intro c hc
        simpa using ht c hc
      rw [takeWhile_append_of_all t r hall]
      rcases hr with hr | ⟨r2, hr⟩
      · simp [hr]
      · simp [hr, List.takeWhile_cons]
    induction a with
    | nil =>
      rw [List.nil_append]
      show scanSkipToken (sep :: (skipTokenKey ++ (t ++ r))) = some t
      have hdrop : (skipTokenKey ++ (t ++ r)).drop skipTokenKey.length = t ++ r :=
        List.drop_left skipTokenKey (t ++ r)
      have hcond : (sep = '&' ∨ sep = '?') ∧
          skipTokenKey.isPrefixOf (skipTokenKey ++ (t ++ r)) = true ∧
          ((skipTokenKey ++ (t ++ r)).drop skipTokenKey.length).takeWhile
            (fun x => x != '&') ≠ [] := by
        refine ⟨hsep, isPrefixOf_append_self _ _, ?_⟩
        rw [hdrop, htake]
        exact ht0
      simp only [scanSkipToken, if_pos hcond]
      rw [hdrop, htake]
    | cons c cs ih =>
      have hc : c ≠ '&' ∧ c ≠ '?' := ha c (List.mem_cons_self c cs)
      have hcs : ∀ d ∈ cs, d ≠ '&' ∧ d ≠ '?' := fun d hd => ha d (List.mem_cons_of_mem c hd)
      rw [List.cons_append]
      have hnot : ¬((c = '&' ∨ c = '?') ∧
          skipTokenKey.isPrefixOf (cs ++ sep :: (skipTokenKey ++ (t ++ r))) = true ∧
          ((cs ++ sep :: (skipTokenKey ++ (t ++ r))).drop skipTokenKey.length).takeWhile
            (fun x => x != '&') ≠ []) := by
        intro hcond
        rcases hcond.1 with h1 | h1
        · exact hc.1 h1
        · exact hc.2 h1
      simp only [scanSkipToken, if_neg hnot]
      exact ih hcs

/-- The base part of the demo continuation link (before the query). -/
def demoLinkBase : Str := "https://graph.example.com/me/drive/root/children".toList

/-- The remainder of the demo link after the skip-token value. -/
def demoLinkRest : Str := "&$top=5".toList

/-- The demo continuation link:
`https://graph.example.com/me/drive/root/children?$skiptoken=NXT42&$top=5`. -/
def demoNextLink : Str :=
  demoLinkBase ++ '?' :: (skipTokenKey ++ ("NXT42".toList ++ demoLinkRest))

/-- The demo listing page carrying the demo link. -/
def demoPage : GraphPage := { value := [], nextLink := some demoNextLink }

/-- Witness for claim C5 (amended): on a realistic Graph next link the
extraction returns the skip-token value, and the listing response carries
exactly it. -/
theorem c5_witness :
    (listFilesM demoPage).nextPageToken = demoPage.nextLink.bind scanSkipToken ∧
    (demoPage.nextLink = none → (listFilesM demoPage).nextPageToken = none) ∧
    scanSkipToken demoNextLink = some ("NXT42".toList) :=
  c5_amended_token_extraction demoPage demoLinkBase ("NXT42".toList) demoLinkRest '?'
    (by decide) (by decide) (by decide) (by decide)
    (Or.inr ⟨"$top=5".toList, by decide⟩)

/-! ## `getAccessTokenFromHeader` (authService) -/

/-- The lowercase bearer marker with its trailing space (`'bearer '`). -/
def bearerSpace : Str := "bearer ".toList

/-- The lowercase bearer word alone. -/
def bearerWord : Str := "bearer".toList

/-- `getAccessTokenFromHeader`: take the `authorization` header (or `''`),
require a case-insensitive `bearer ` prefix, return `split(' ')[1]` unless
it is falsy. -/
def getAccessTokenFromHeaderM (header : Option Str) : Option Str :=
  let authHeader := header.getD []
  if bearerSpace.isPrefixOf (toLowerStr authHeader) = true then
    match (splitChar ' ' authHeader).get? 1 with
    | none => none
    | some t => if t = [] then none else some t
  else none

example : getAccessTokenFromHeaderM (some ("Bearer abc".toList)) = some ("abc".toList) := by
  decide

example : getAccessTokenFromHeaderM (some ("bEaReR abc".toList)) = some ("abc".toList) := by
  decide

example : getAccessTokenFromHeaderM (some ("Basic abc".toList)) = none := by decide

example : getAccessTokenFromHeaderM (some ("Bearer ".toList)) = none := by decide

example : getAccessTokenFromHeaderM (some ("Bearer  x".toList)) = none := by decide

/-- The substring after the first space — the reading of the token the
claim asserts. -/
def afterFirstSpace (s : Str) : Str :=
  (s.dropWhile (fun c => c != ' ')).drop 1

/-- A header whose value after the bearer prefix contains a space. -/
def spacedHeader : Str := "Bearer a b".toList

/-- Claim C10, counterexample: for `Authorization: Bearer a b` the code
returns the second space-separated field `"a"`, not the substring after
the first space `"a b"`. -/
theorem c10_counterexample :
    getAccessTokenFromHeaderM (some spacedHeader) = some ("a".toList) ∧
    afterFirstSpace spacedHeader = "a b".toList ∧
    getAccessTokenFromHeaderM (some spacedHeader) ≠ some (afterFirstSpace spacedHeader) := by
  refine ⟨by decide, by decide, by decide⟩

/-- Claim C10 (amended): extraction accepts the bearer prefix
case-insensitively; an absent header or one without the prefix yields
`none` (no exception is possible — the function is total); and for a
header `<bearer-cased> <t>` the result is the portion of `t` before its
first space (the second space-separated field), `none` when that portion
is empty. -/
theorem c10_amended_bearer_extraction (p t u : Str)
    (hlower : toLowerStr p = bearerWord)
    (hp : ∀ c ∈ p, c ≠ ' ')
    (hu : bearerSpace.isPrefixOf (toLowerStr u) = false) :
    getAccessTokenFromHeaderM none = none ∧
    getAccessTokenFromHeaderM (some u) = none ∧
    getAccessTokenFromHeaderM (some (p ++ ' ' :: t)) =
      (if t.takeWhile (fun c => c != ' ') = [] then none
       else some (t.takeWhile (fun c => c != ' '))) := by
  refine ⟨rfl, ?_, ?_⟩
  · simp [getAccessTokenFromHeaderM, hu]
  · have hmap : toLowerStr (p ++ ' ' :: t) = bearerSpace ++ toLowerStr t := by
      have h1 : toLowerStr (p ++ ' ' :: t) = toLowerStr p ++ Char.toLower ' ' :: toLowerStr t := by
        simp [toLowerStr]
      have h2 : Char.toLower ' ' = ' ' := by decide
      have h3 : bearerSpace = bearerWord ++ [' '] := by decide
      rw [h1, h2, hlower, h3, List.append_assoc]
      rfl
    have hpre : bearerSpace.isPrefixOf (toLowerStr (p ++ ' ' :: t)) = true := by
      rw [hmap]
      exact isPrefixOf_append_self _ _
    have hsplit : splitChar ' ' (p ++ ' ' :: t) = p :: splitChar ' ' t :=
      splitChar_append_sep ' ' p t hp
    have hget : (splitChar ' ' (p ++ ' ' :: t)).get? 1 =
        some (t.takeWhile (fun c => c != ' ')) := by
      rw [hsplit]
      show (splitChar ' ' t).get? 0 = some (t.takeWhile (fun c => c != ' '))
      rw [List.get?_zero]
      exact splitChar_head ' ' t
    simp only [getAccessTokenFromHeaderM, Option.getD_some, hpre, if_true, hget]

/-- Witness for claim C10 (amended): the uppercase prefix `BEARER tok123`
is accepted and yields `tok123`; an absent header and a `Token abc`
header yield `none`. -/
theorem c10_witness :
    getAccessTokenFromHeaderM none = none ∧
    getAccessTokenFromHeaderM (some ("Token abc".toList)) = none ∧
    getAccessTokenFromHeaderM (some ("BEARER".toList ++ ' ' :: "tok123".toList)) =
      (if ("tok123".toList).takeWhile (fun c => c != ' ') = [] then none
       else some (("tok123".toList).takeWhile (fun c => c != ' '))) :=
  c10_amended_bearer_extraction ("BEARER".toList) ("tok123".toList) ("Token abc".toList)
    (by decide) (by decide) (by decide)

/-! ## The listing schemas of the two front-ends (claim C7) -/

/-- The tool front-end's `listFilesSchema` fields (part_004): required
non-empty access token, optional folder id and cursor, and
`pageSize: z.number().int().positive().max(200)` (already-numeric input;
`.int()` restricts to integers, which `Int` models). -/
structure ToolListInput where
  accessToken : Option Str
  folderId : Option Str
  pageSize : Option Int
  nextPageToken : Option Str
  deriving DecidableEq

/-- `listFilesSchema.safeParse(...).success` for the tool front-end. -/
def toolListAccepts (i : ToolListInput) : Bool :=
  (match i.accessToken with
   | none => false
   | some s => !s.isEmpty) &&
  (match i.pageSize with
   | none => true
   | some n => decide (0 < n) && decide (n ≤ 200))

/-- The HTTP front-end's query parameters for `GET /api/files`
(`pageSize` after `z.coerce` has applied `Number()` to the query string;
non-numeric coercions produce `NaN`, which the schema rejects and which is
outside this integer model). -/
structure ListQuery where
  folderId : Option Str
  pageSize : Option Int
  nextPageToken : Option Str
  deriving DecidableEq

/-- `listFilesQuerySchema.safeParse`: `pageSize` must be a positive
integer at most 1000, defaulting to 100 when absent. -/
def listQueryParse (q : ListQuery) : Option (Option Str × Int × Option Str) :=
  match q.pageSize with
  | none => some (q.folderId, 100, q.nextPageToken)
  | some n =>
    if 0 < n ∧ n ≤ 1000 then some (q.folderId, n, q.nextPageToken) else none

/-! ## The HTTP + SSE front-end (`sseServer.ts`, `fileHandlers.ts`) -/

/-- An HTTP response reduced to its status code. -/
structure HttpResp where
  status : Nat
  deriving DecidableEq

/-- Server state: the SSE client registry (insertion-ordered, as a
JavaScript `Map`) and the handlers' mock `files` record. -/
structure SrvState where
  clients : List Str
  files : List (Str × Unit)
  deriving DecidableEq

/-- `SseServer.sendEventToAll`: write the event to every registered
client in order; a throwing write deletes that client (deleting the
current entry during `Map.forEach` does not skip the others) and the
loop continues.  `writeOk` tells which client writes succeed for this
broadcast.  Returns (clients that received the event, remaining
registry). -/
def sendEventToAllM (writeOk : Str → Bool) : List Str → List Str × List Str
  | [] => ([], [])
  | c :: cs =>
    let r := sendEventToAllM writeOk cs
    if writeOk c then (c :: r.fst, c :: r.snd) else (r.fst, r.snd)

/-- `handleListFiles`: bearer token, then schema validation, then the
facade call.  The second component records whether the facade (and hence
the remote) was reached; the remote listing itself is modelled as
succeeding. -/
def handleListFilesM (authHeader : Option Str) (q : ListQuery) : HttpResp × Bool :=
  match getAccessTokenFromHeaderM authHeader with
  | none => ({ status := 401 }, false)
  | some _ =>
    match listQueryParse q with
    | none => ({ status := 400 }, false)
    | some _ => ({ status := 200 }, true)

/-- `handleGetFile`: bearer token, id from `url.split('/').pop()`, then
the mock `files` record (never the facade). -/
def handleGetFileM (st : SrvState) (authHeader : Option Str) (path : Str) :
    HttpResp × Bool :=
  match getAccessTokenFromHeaderM authHeader with
  | none => ({ status := 401 }, false)
  | some _ =>
    match (splitChar '/' path).getLast? with
    | none => ({ status := 400 }, false)
    | some fid =>
      if fid = [] then ({ status := 400 }, false)
      else
        match st.files.lookup fid with
        | none => ({ status := 404 }, false)
        | some _ => ({ status := 200 }, false)

/-- The parsed JSON body of `POST /api/files` (`none` for a body that
`JSON.parse` rejects). -/
structure UpBody where
  filePath : Option Str
  fileName : Option Str
  parentFolderId : Option Str
  parentFolderName : Option Str
  conflictBehavior : Option Str
  deriving DecidableEq

/-- `x || y` on strings. -/
def jsOr (o : Option Str) (d : Str) : Str :=
  match o with
  | some s => if s = [] then d else s
  | none => d

/-- The `UploadFileInput` the upload handler builds from its body. -/
def uploadInputOfBody (b : UpBody) : UpInput :=
  { parentFolderName := b.parentFolderName, filePath := b.filePath,
    fileName := b.fileName, fileContent := none,
    conflictBehavior := some (jsOr b.conflictBehavior renameStr) }

/-- `handleUploadFile`: bearer token (checked before body parsing), JSON
body, required truthy `filePath`, facade upload, SSE broadcast, 201.
Returns (response, new state, facade-called flag). -/
def handleUploadFileM (drive : Drive) (localRead : Str → Except Str (Str × Str))
    (remote : UpRemote) (writeOk : Str → Bool) (st : SrvState)
    (authHeader : Option Str) (body : Option UpBody) :
    HttpResp × SrvState × Bool :=
  match getAccessTokenFromHeaderM authHeader with
  | none => ({ status := 401 }, st, false)
  | some _ =>
    match body with
    | none => ({ status := 400 }, st, false)
    | some b =>
      match b.filePath with
      | none => ({ status := 400 }, st, false)
      | some fp =>
        if fp = [] then ({ status := 400 }, st, false)
        else
          match (uploadFileM drive localRead remote (uploadInputOfBody b)).fst with
          | Except.error _ => ({ status := 500 }, st, true)
          | Except.ok _ =>
            ({ status := 201 },
             { st with clients := (sendEventToAllM writeOk st.clients).snd }, true)

/-- `handleDeleteFile`: bearer token, id from the path, the mock store
(so never the facade), then the `file_deleted` broadcast and 200. -/
def handleDeleteFileM (writeOk : Str → Bool) (st : SrvState)
    (authHeader : Option Str) (path : Str) : HttpResp × SrvState × Bool :=
  match getAccessTokenFromHeaderM authHeader with
  | none => ({ status := 401 }, st, false)
  | some _ =>
    match (splitChar '/' path).getLast? with
    | none => ({ status := 400 }, st, false)
    | some fid =>
      if fid = [] then ({ status := 400 }, st, false)
      else
        match st.files.lookup fid with
        | none => ({ status := 404 }, st, false)
        | some _ =>
          ({ status := 200 },
           { clients := (sendEventToAllM writeOk st.clients).snd,
             files := st.files.filter (fun kv => !(kv.fst == fid)) }, false)

/-- The parsed JSON body of `POST /api/files/{id}/download` (`none` for a
body `JSON.parse` rejects; the route passes `{}` for an empty body). -/
structure DlBody where
  outputPath : Option Str
  fileName : Option Str
  deriving DecidableEq

def undefinedStr : Str := "undefined".toList

/-- `handleDownloadFile`: bearer token, required truthy `fileId` (taken
from the route), then the facade download.  The handler passes
`fileName || undefined`; the effective (later-revision) service
destructures `fileName` and stringifies an `undefined` one into the
address via `encodeURIComponent`. -/
def handleDownloadFileM (drive : Drive) (remote : DlRemote) (cwd : Str) (fs0 : FS)
    (authHeader : Option Str) (fidOpt : Option Str) (b : DlBody) :
    HttpResp × Bool :=
  match getAccessTokenFromHeaderM authHeader with
  | none => ({ status := 401 }, false)
  | some _ =>
    if fidOpt = none ∨ fidOpt = some [] then ({ status := 400 }, false)
    else
      let fn := match b.fileName with
                | some n => if n = [] then undefinedStr else n
                | none => undefinedStr
      match downloadFileM drive remote cwd fs0 fn none b.outputPath with
      | Except.error _ => ({ status := 500 }, true)
      | Except.ok _ => ({ status := 200 }, true)

/-- The environment of one dispatched request: the collaborators every
handler may need, plus the identifier a new SSE client would get. -/
structure Env where
  drive : Drive
  localRead : Str → Except Str (Str × Str)
  upRemote : UpRemote
  dlRemote : DlRemote
  writeOk : Str → Bool
  cwd : Str
  fs : FS
  newClientId : Str

inductive HMethod where
  | get | post | del | options
  deriving DecidableEq

/-- A request as `SseServer.handleRequest` sees it: method, pathname,
`authorization` header, and the parsed JSON bodies for the two
body-carrying routes. -/
structure SseReq where
  method : HMethod
  path : Str
  authHeader : Option Str
  query : ListQuery
  uploadBody : Option UpBody
  downloadBody : Option DlBody

/-- What a dispatched request produced. -/
structure RouteOutcome where
  status : Nat
  facadeCalled : Bool
  sseRegistered : Bool
  deriving DecidableEq

def apiFilesPath : Str := "/api/files".toList
def apiFilesSlash : Str := "/api/files/".toList
def eventsPath : Str := "/events".toList
def downloadSuffix : Str := "/download".toList

/-- `SseServer.handleRequest`: OPTIONS preflight, the SSE route (no
authentication — it registers the client and sends the connected event),
then the five `/api/files` routes in source order, then 404.  The
download route parses the body before its handler runs. -/
def handleRequestM (env : Env) (st : SrvState) (req : SseReq) :
    RouteOutcome × SrvState :=
  if req.method = HMethod.options then
    ({ status := 200, facadeCalled := false, sseRegistered := false }, st)
  else if req.path = eventsPath ∧ req.method = HMethod.get then
    ({ status := 200, facadeCalled := false, sseRegistered := true },
     { st with clients := st.clients ++ [env.newClientId] })
  else if req.path = apiFilesPath ∧ req.method = HMethod.get then
    let r := handleListFilesM req.authHeader req.query
    ({ status := r.fst.status, facadeCalled := r.snd, sseRegistered := false }, st)
  else if apiFilesSlash.isPrefixOf req.path = true ∧ req.method = HMethod.get then
    let r := handleGetFileM st req.authHeader req.path
    ({ status := r.fst.status, facadeCalled := r.snd, sseRegistered := false }, st)
  else if req.path = apiFilesPath ∧ req.method = HMethod.post then
    let r := handleUploadFileM env.drive env.localRead env.upRemote env.writeOk st
               req.authHeader req.uploadBody
    ({ status := r.fst.status, facadeCalled := r.snd.snd, sseRegistered := false },
     r.snd.fst)
  else if apiFilesSlash.isPrefixOf req.path = true ∧ req.method = HMethod.del then
    let r := handleDeleteFileM env.writeOk st req.authHeader req.path
    ({ status := r.fst.status, facadeCalled := r.snd.snd, sseRegistered := false },
     r.snd.fst)
  else if apiFilesSlash.isPrefixOf req.path = true ∧
          downloadSuffix.isSuffixOf req.path = true ∧ req.method = HMethod.post then
    match req.downloadBody with
    | none => ({ status := 400, facadeCalled := false, sseRegistered := false }, st)
    | some b =>
      let fidOpt := (splitChar '/' req.path).get? 3
      let r := handleDownloadFileM env.drive env.dlRemote env.cwd env.fs
                 req.authHeader fidOpt b
      ({ status := r.fst.status, facadeCalled := r.snd, sseRegistered := false }, st)
  else
    ({ status := 404, facadeCalled := false, sseRegistered := false }, st)

/-! ## Claims C7, C8, C9 -/

/-- A tool listing input with page size 200. -/
def toolIn200 : ToolListInput :=
  { accessToken := some ("t".toList), folderId := none,
    pageSize := some 200, nextPageToken := none }

/-- A tool listing input with page size 201. -/
def toolIn201 : ToolListInput :=
  { accessToken := some ("t".toList), folderId := none,
    pageSize := some 201, nextPageToken := none }

/-- An HTTP listing query with page size 1000. -/
def httpQ1000 : ListQuery :=
  { folderId := none, pageSize := some 1000, nextPageToken := none }

/-- An HTTP listing query with page size 1001. -/
def httpQ1001 : ListQuery :=
  { folderId := none, pageSize := some 1001, nextPageToken := none }

/-- Claim C7: a non-positive `pageSize` is rejected by the tool schema and
by the HTTP query schema; the HTTP handler then answers without reaching
the facade (400 after validation, or 401 if the token already failed);
and the upper bounds differ: 200 in the tool front-end (201 rejected),
1000 in the HTTP front-end (1001 rejected). -/
theorem c7_page_size_bounds (n : Int) (i : ToolListInput) (q : ListQuery)
    (h : Option Str)
    (hn : n ≤ 0) (hi : i.pageSize = some n) (hq : q.pageSize = some n) :
    toolListAccepts i = false ∧
    listQueryParse q = none ∧
    (handleListFilesM h q).snd = false ∧
    ((handleListFilesM h q).fst.status = 400 ∨ (handleListFilesM h q).fst.status = 401) ∧
    toolListAccepts toolIn200 = true ∧
    toolListAccepts toolIn201 = false ∧
    (listQueryParse httpQ1000).isSome = true ∧
    listQueryParse httpQ1001 = none := by
  have hnot : ¬(0 : Int) < n := not_lt.mpr hn
  have hparse : listQueryParse q = none := by
    simp only [listQueryParse, hq]
    rw [if_neg]
    intro hcon
    exact hnot hcon.1
  refine ⟨?_, hparse, ?_, ?_, by decide, by decide, by decide, by decide⟩
  · simp [toolListAccepts, hi, hnot]
  · rcases htk : getAccessTokenFromHeaderM h with _ | tk
    · simp [handleListFilesM, htk]
    · simp [handleListFilesM, htk, hparse]
  · rcases htk : getAccessTokenFromHeaderM h with _ | tk
    · simp [handleListFilesM, htk]
    · simp [handleListFilesM, htk, hparse]

/-- Witness for claim C7 at `pageSize = 0` with no bearer token supplied. -/
theorem c7_witness :
    toolListAccepts
      { accessToken := some ("t".toList), folderId := none,
        pageSize := some 0, nextPageToken := none } = false ∧
    listQueryParse { folderId := none, pageSize := some 0, nextPageToken := none } = none ∧
    (handleListFilesM none
      { folderId := none, pageSize := some 0, nextPageToken := none }).snd = false ∧
    ((handleListFilesM none
      { folderId := none, pageSize := some 0, nextPageToken := none }).fst.status = 400 ∨
     (handleListFilesM none
      { folderId := none, pageSize := some 0, nextPageToken := none }).fst.status = 401) ∧
    toolListAccepts toolIn200 = true ∧
    toolListAccepts toolIn201 = false ∧
    (listQueryParse httpQ1000).isSome = true ∧
    listQueryParse httpQ1001 = none :=
  c7_page_size_bounds 0
    { accessToken := some ("t".toList), folderId := none,
      pageSize := some 0, nextPageToken := none }
    { folderId := none, pageSize := some 0, nextPageToken := none }
    none (by decide) (by decide) (by decide)

/-- Whether a request matches one of the five `/api/files` routes of the
router (list, get-by-id, upload, delete, download), and is not an OPTIONS
preflight. -/
def MatchesApiFilesRoute (req : SseReq) : Prop :=
  req.method ≠ HMethod.options ∧
  ((req.path = apiFilesPath ∧ (req.method = HMethod.get ∨ req.method = HMethod.post)) ∨
   (apiFilesSlash.isPrefixOf req.path = true ∧
     (req.method = HMethod.get ∨ req.method = HMethod.del)) ∨
   (apiFilesSlash.isPrefixOf req.path = true ∧
     downloadSuffix.isSuffixOf req.path = true ∧ req.method = HMethod.post))

instance (req : SseReq) : Decidable (MatchesApiFilesRoute req) := by
  unfold MatchesApiFilesRoute
  infer_instance

/-- The request used to refute claim C8: `GET /events` with no
authorization header. -/
def evReq : SseReq :=
  { method := HMethod.get, path := eventsPath, authHeader := none,
    query := { folderId := none, pageSize := none, nextPageToken := none },
    uploadBody := none, downloadBody := none }

/-- A trivial environment for counterexample evaluation. -/
def demoEnv : Env :=
  { drive := fun _ => [], localRead := fun _ => Except.error [],
    upRemote := ⟨fun _ _ _ _ => Except.error []⟩,
    dlRemote := ⟨fun _ _ => Except.error [], fun _ => []⟩,
    writeOk := fun _ => true, cwd := "/srv".toList, fs := ⟨[], []⟩,
    newClientId := "1700000000000".toList }

/-- Claim C8, counterexample: the push route `GET /events` — one of the
routes the HTTP+push front-end exposes — accepts a request with no
authorization header: it answers 200 and registers the push channel
instead of failing with Unauthorized. -/
theorem c8_counterexample :
    evReq.authHeader = none ∧
    (handleRequestM demoEnv ⟨[], []⟩ evReq).fst =
      { status := 200, facadeCalled := false, sseRegistered := true } ∧
    (handleRequestM demoEnv ⟨[], []⟩ evReq).snd.clients = ["1700000000000".toList] := by
  refine ⟨rfl, by decide, by decide⟩

/-- Claim C8 (amended): on the five `/api/files` routes, a request whose
bearer extraction fails (absent or malformed authorization header) is
answered 401 before any facade call and without touching the server
state; the `GET /events` push route, however, performs no authentication
(see the counterexample).  The download route needs a parseable body to
reach its handler, since the router parses the body before the token is
inspected. -/
theorem c8_amended_api_routes_unauthorized (env : Env) (st : SrvState) (req : SseReq)
    (hauth : getAccessTokenFromHeaderM req.authHeader = none)
    (hroute : MatchesApiFilesRoute req)
    (hbody : apiFilesSlash.isPrefixOf req.path = true →
      downloadSuffix.isSuffixOf req.path = true → req.method = HMethod.post →
      req.downloadBody.isSome = true) :
    (handleRequestM env st req).fst.status = 401 ∧
    (handleRequestM env st req).fst.facadeCalled = false ∧
    (handleRequestM env st req).snd = st := by
  have hopt : ¬(req.method = HMethod.options) := hroute.1
  have hev : ¬(req.path = eventsPath ∧ req.method = HMethod.get) := by
    rintro ⟨hpath, -⟩
    rcases hroute.2 with ⟨h1, -⟩ | ⟨h1, -⟩ | ⟨h1, -, -⟩
    · rw [hpath] at h1
      exact absurd h1 (by decide)
    · rw [hpath] at h1
      exact absurd h1 (by decide)
    · rw [hpath] at h1
      exact absurd h1 (by decide)
  unfold handleRequestM
  rw [if_neg hopt, if_neg hev]
  by_cases h3 : req.path = apiFilesPath ∧ req.method = HMethod.get
  · rw [if_pos h3]
    simp [handleListFilesM, hauth]
  rw [if_neg h3]
  by_cases h4 : apiFilesSlash.isPrefixOf req.path = true ∧ req.method = HMethod.get
  · rw [if_pos h4]
    simp [handleGetFileM, hauth]
  rw [if_neg h4]
  by_cases h5 : req.path = apiFilesPath ∧ req.method = HMethod.post
  · rw [if_pos h5]
    simp [handleUploadFileM, hauth]
  rw [if_neg h5]
  by_cases h6 : apiFilesSlash.isPrefixOf req.path = true ∧ req.method = HMethod.del
  · rw [if_pos h6]
    simp [handleDeleteFileM, hauth]
  rw [if_neg h6]
  by_cases h7 : apiFilesSlash.isPrefixOf req.path = true ∧
      downloadSuffix.isSuffixOf req.path = true ∧ req.method = HMethod.post
  · rw [if_pos h7]
    rcases hdb : req.downloadBody with _ | b
    · have := hbody h7.1 h7.2.1 h7.2.2
      rw [hdb] at this
      simp at this
    · simp [handleDownloadFileM, hauth]
  · exfalso
    rcases hroute.2 with ⟨hp, hm | hm⟩ | ⟨hp, hm | hm⟩ | ⟨hp, hs, hm⟩
    · exact h3 ⟨hp, hm⟩
    · exact h5 ⟨hp, hm⟩
    · exact h4 ⟨hp, hm⟩
    · exact h6 ⟨hp, hm⟩
    · exact h7 ⟨hp, hs, hm⟩

/-- The request used by the C8 witness: `GET /api/files` with a
non-bearer authorization header. -/
def basicAuthReq : SseReq :=
  { method := HMethod.get, path := apiFilesPath,
    authHeader := some ("Basic dXNlcg==".toList),
    query := { folderId := none, pageSize := none, nextPageToken := none },
    uploadBody := none, downloadBody := some { outputPath := none, fileName := none } }

/-- Witness for claim C8 (amended): a list request with a `Basic`
authorization header is answered 401 with no facade call and unchanged
state. -/
theorem c8_witness :
    (handleRequestM demoEnv ⟨[], []⟩ basicAuthReq).fst.status = 401 ∧
    (handleRequestM demoEnv ⟨[], []⟩ basicAuthReq).fst.facadeCalled = false ∧
    (handleRequestM demoEnv ⟨[], []⟩ basicAuthReq).snd = ⟨[], []⟩ :=
  c8_amended_api_routes_unauthorized demoEnv ⟨[], []⟩ basicAuthReq
    (by decide) (by decide) (by decide)

theorem sendEventToAllM_filter (writeOk : Str → Bool) (cs : List Str) :
    sendEventToAllM writeOk cs = (cs.filter writeOk, cs.filter writeOk) := by
  induction cs with
  | nil => rfl
  | cons c cs ih =>
    simp only [sendEventToAllM, ih, List.filter_cons]
    by_cases hc : writeOk c = true
    · simp [hc]
    · simp [Bool.eq_false_iff.mpr hc, hc]

/-- Claim C9: broadcasting evicts exactly the channels whose write failed
— every channel with a successful write receives the event and stays
registered, in order — and an upload request that triggers the broadcast
still completes with 201 regardless of which channel writes fail. -/
theorem c9_broadcast_failure_isolation (writeOk : Str → Bool) (clients : List Str)
    (drive : Drive) (localRead : Str → Except Str (Str × Str)) (remote : UpRemote)
    (st : SrvState) (authHeader : Option Str) (b : UpBody) (fp : Str) (tok : Str)
    (r : UploadResp)
    (hauth : getAccessTokenFromHeaderM authHeader = some tok)
    (hfp : b.filePath = some fp)
    (hfp2 : fp ≠ [])
    (hup : (uploadFileM drive localRead remote (uploadInputOfBody b)).fst = Except.ok r) :
    sendEventToAllM writeOk clients = (clients.filter writeOk, clients.filter writeOk) ∧
    handleUploadFileM drive localRead remote writeOk st authHeader (some b) =
      ({ status := 201 }, { st with clients := st.clients.filter writeOk }, true) := by
  refine ⟨sendEventToAllM_filter writeOk clients, ?_⟩
  simp [handleUploadFileM, hauth, hfp, hfp2, hup, sendEventToAllM_filter]

/-- The upload body for the C9 witness. -/
def demoUpBody : UpBody :=
  { filePath := some ("/data/f.txt".toList), fileName := none,
    parentFolderId := none, parentFolderName := none, conflictBehavior := none }

/-- A local read that succeeds with base64 content and basename. -/
def demoLocalRead : Str → Except Str (Str × Str) :=
  fun _ => Except.ok ("QUJD".toList, "f.txt".toList)

/-- A remote PUT that succeeds. -/
def demoUpRemote : UpRemote :=
  ⟨fun _ n _ _ => Except.ok
    { id := "u1".toList, webUrl := "https://x".toList, name := n, size := 3,
      fileMime := some ("text/plain".toList) }⟩

/-- A broadcast in which the channel "bad" fails and the others succeed. -/
def demoWriteOk : Str → Bool := fun c => !(c == "bad".toList)

/-- The registry for the C9 witness. -/
def demoClients : List Str := ["good1".toList, "bad".toList, "good2".toList]

/-- Witness for claim C9: with channels good1, bad, good2 and a failing
write on "bad", the event reaches good1 and good2, only "bad" is evicted,
and the triggering upload still answers 201. -/
theorem c9_witness :
    sendEventToAllM demoWriteOk demoClients =
      (demoClients.filter demoWriteOk, demoClients.filter demoWriteOk) ∧
    handleUploadFileM (fun _ => []) demoLocalRead demoUpRemote demoWriteOk
        ⟨demoClients, []⟩ (some ("Bearer tok".toList)) (some demoUpBody) =
      ({ status := 201 },
       { clients := demoClients.filter demoWriteOk, files := [] }, true) :=
  c9_broadcast_failure_isolation demoWriteOk demoClients (fun _ => [])
    demoLocalRead demoUpRemote ⟨demoClients, []⟩ (some ("Bearer tok".toList))
    demoUpBody ("/data/f.txt".toList) ("tok".toList)
    { id := "u1".toList, webUrl := "https://x".toList, name := "f.txt".toList,
      size := 3, mimeType := "text/plain".toList }
    (by decide) (by decide) (by decide) (by decide)
